import Mathlib

/-!
Shallow embedding of the slackcnr channel-name resolver.

Source files embedded: `storage.go` (the in-memory cache store) and
`resolver.go` (the resolver orchestrating staleness checks, paginated
refresh with rate-limit handling, and lookups).

Modelling conventions:
- Go `map[string]T` becomes an association list `List (String × T)` where
  an insert conses a new binding in front; `alistFind` returns the most
  recent binding, which is exactly the Go map's read-after-write value.
  Older shadowed pairs are inert.
- `time.Time` / `time.Duration` become `Nat`; the zero `time.Time` becomes
  `Option.none`; `time.Now()` is passed in explicitly as a `now` argument.
- The remote Slack client is driven by a finite script of responses, one
  response consumed per issued page request (exactly how the repository's
  own tests drive the resolver through a mock client).
- Go errors become the inductive `Err`; `errors.Is(err, ErrNotFound)` is
  equality with `Err.notFound`, and `errors.As(err, &rle)` together with
  `rle.Retryable()` is the test `isRetryableRL`.
- Context cancellation is a schedule `cancelAt : Option Nat`: the context
  counts as cancelled at every select-check numbered `cancelAt` or later.
-/

/-- Channel record. The core of the source depends only on the platform
identifier (`slack.Channel.ID`) and the display name (`slack.Channel.Name`);
all other fields of the source struct are opaque payload. -/
structure Channel where
  id : String
  name : String
  deriving Repr, DecidableEq

/-- Error currency of the embedding. `notFound` is storage.go's `ErrNotFound`;
`ctxCanceled` is `ctx.Err()`; `rateLimited` is `slack.RateLimitedError`,
carrying its `RetryAfter` duration and the value of its `Retryable()` method
(the library type is external to this repository, so it is modelled as the
structured "rate limited, retryable, retry-after" signal the code matches
with `errors.As`); `storageFailure` and `apiFailure` stand for arbitrary
other storage / transport error values, told apart only by kind. -/
inductive Err where
  | notFound
  | ctxCanceled
  | rateLimited (retryAfter : Nat) (retryable : Bool)
  | storageFailure (code : Nat)
  | apiFailure (code : Nat)
  deriving Repr, DecidableEq

/-- Result of `errors.As(err, &rle) && rle.Retryable()` in resolver.go
(lines 136-142): the error is a rate-limit signal marked retryable. -/
def isRetryableRL : Err → Bool
  | .rateLimited _ true => true
  | _ => false

/-- The `RetryAfter` duration carried by a rate-limit error (0 otherwise). -/
def retryAfterOf : Err → Nat
  | .rateLimited d _ => d
  | _ => 0

/-- Equality of `Except` results is decidable when both sides are. -/
instance {ε α : Type} [DecidableEq ε] [DecidableEq α] : DecidableEq (Except ε α) :=
  fun a b =>
    match a, b with
    | .error e1, .error e2 =>
      if h : e1 = e2 then .isTrue (by rw [h])
      else .isFalse (by intro hc; cases hc; exact h rfl)
    | .error _, .ok _ => .isFalse (by intro hc; cases hc)
    | .ok _, .error _ => .isFalse (by intro hc; cases hc)
    | .ok v1, .ok v2 =>
      if h : v1 = v2 then .isTrue (by rw [h])
      else .isFalse (by intro hc; cases hc; exact h rfl)

/-- One scripted answer of the remote client: either a page of channels plus
the next pagination cursor, or an error. -/
inductive ApiResponse where
  | ok (channels : List Channel) (nextCursor : String)
  | err (e : Err)
  deriving Repr, DecidableEq

/-- Observable events of a `Refresh` run, in order. `callUser` is a
`GetConversationsForUserContext` page request, `callPublic` a
`GetConversationsContext` page request, each recording the cursor, limit and
exclude-archived flag passed; `merged` is a `SetChannels` push of one page.
`waited` would record a completed backoff sleep; the source's select
statement (resolver.go lines 124-129 and 160-165) carries a `default:` case,
which in Go makes the select non-blocking — a freshly created
`time.After(sleepTime)` channel is never ready at the instant the select
evaluates, so the timer branch is dead and this event is never produced;
the constructor exists so that the absence of waits is statable. -/
inductive ApiEvent where
  | callUser (cursor : String) (limit : Nat) (excludeArchived : Bool)
  | callPublic (cursor : String) (limit : Nat) (excludeArchived : Bool)
  | merged (channels : List Channel)
  | waited (d : Nat)
  deriving Repr, DecidableEq

/-- The resolver options `Refresh` reads (resolver.go `resolverOptions`):
batch size, exclude-archived flag, and the search-public-channels toggle. -/
structure RefreshConfig where
  batchSize : Nat
  excludeArchived : Bool
  searchPublicChannels : Bool
  deriving Repr, DecidableEq

/-- How a `Refresh` run ended: normal return, an error return, or the
response script ran out before the run returned (the run is not observed
further). -/
inductive RunStatus where
  | success
  | failure (e : Err)
  | scriptExhausted
  deriving Repr, DecidableEq

/-- State returned by the paginated loop: its status, the storage it left
behind, the event trace so far, the unconsumed remainder of the response
script, and the number of select checks performed (the clock used by the
cancellation schedule). -/
structure LoopState (σ : Type) where
  status : RunStatus
  store : σ
  trace : List ApiEvent
  rest : List ApiResponse
  checks : Nat
  deriving DecidableEq

/-- The cancellation context: `canceled cancelAt t` holds when the caller's
context is already cancelled at select check number `t`. -/
def canceled (cancelAt : Option Nat) (t : Nat) : Bool :=
  match cancelAt with
  | none => false
  | some c => decide (c ≤ t)

/-- One pagination loop of `Resolver.Refresh` (resolver.go lines 123-153 and
159-189; both loops have the same body, differing only in which client
method they call, abstracted here as the event constructor `mk`).
Each iteration: the select statement first — if the context is already
cancelled its `Done` channel is ready and the select returns `ctx.Err()`;
otherwise no case is ready (the freshly created `time.After(sleepTime)`
channel cannot be ready at evaluation time) so the `default:` case falls
through with no wait, which is why the `sleepTime` slot is written but never
read. Then the page request is issued, consuming the head of the script:
a retryable rate-limit error stores `RetryAfter` into `sleepTime` and
retries with the cursor unadvanced; any other error returns it; a
successful page is pushed via `SetChannels` (whose error also returns),
then an empty next cursor breaks and a non-empty one becomes the cursor of
the next request. -/
def refreshLoop (cfg : RefreshConfig) {σ : Type} (set : σ → List Channel → Except Err σ)
    (mk : String → Nat → Bool → ApiEvent) (cancelAt : Option Nat) :
    List ApiResponse → String → Nat → Nat → σ → List ApiEvent → LoopState σ
  | script, cursor, _sleepTime, t, store, trace =>
    if canceled cancelAt t then
      { status := .failure .ctxCanceled, store := store, trace := trace,
        rest := script, checks := t }
    else
      match script with
      | [] =>
        { status := .scriptExhausted, store := store, trace := trace,
          rest := [], checks := t }
      | resp :: rest =>
        let trace2 := trace ++ [mk cursor cfg.batchSize cfg.excludeArchived]
        match resp with
        | .err e =>
          if isRetryableRL e then
            refreshLoop cfg set mk cancelAt rest cursor (retryAfterOf e) (t + 1) store trace2
          else
            { status := .failure e, store := store, trace := trace2,
              rest := rest, checks := t + 1 }
        | .ok chans next =>
          let trace3 := trace2 ++ [.merged chans]
          match set store chans with
          | .error e =>
            { status := .failure e, store := store, trace := trace3,
              rest := rest, checks := t + 1 }
          | .ok store2 =>
            if next = "" then
              { status := .success, store := store2, trace := trace3,
                rest := rest, checks := t + 1 }
            else
              refreshLoop cfg set mk cancelAt rest next 0 (t + 1) store2 trace3

/-- `Resolver.Refresh` (resolver.go lines 118-191): drain the
user-conversations endpoint starting from the empty cursor; on an error
return it; on success return unless search-public-channels is enabled, in
which case reset the cursor and sleep time and drain the directory-wide
endpoint the same way. The storage is abstract (`set` is the
`Storage.SetChannels` method); the response script continues from where the
first loop left it, as does the select-check clock. -/
def Refresh (cfg : RefreshConfig) {σ : Type} (set : σ → List Channel → Except Err σ)
    (cancelAt : Option Nat) (script : List ApiResponse) (store : σ) : LoopState σ :=
  let r1 := refreshLoop cfg set ApiEvent.callUser cancelAt script "" 0 0 store []
  match r1.status with
  | .success =>
    if cfg.searchPublicChannels then
      refreshLoop cfg set ApiEvent.callPublic cancelAt r1.rest "" 0 r1.checks r1.store r1.trace
    else r1
  | _ => r1

/-- A storage `SetChannels` that always succeeds, built from a pure update
function; the reference in-memory storage is of this shape. -/
def liftSet {σ : Type} (set : σ → List Channel → σ) : σ → List Channel → Except Err σ :=
  fun s chans => .ok (set s chans)

/-- Association-list read: the value of the most recent binding of `k`,
i.e. the Go map read. -/
def alistFind {α : Type} (k : String) : List (String × α) → Option α
  | [] => none
  | (k2, v) :: rest => if k2 = k then some v else alistFind k rest

/-- `InMemoryStorage` (storage.go lines 21-27): the identifier-to-record
map `channels`, the name-to-identifier map `namesById`, the time of the
last successful `SetChannels` (`none` models the zero `time.Time`), and the
configured expiry duration (the source field is spelled `expredDuration`). -/
structure InMemoryStorage where
  channels : List (String × Channel)
  namesById : List (String × String)
  lastSetTime : Option Nat
  expredDuration : Nat
  deriving Repr, DecidableEq

/-- `NewInMemoryStorage` (storage.go lines 30-36): empty maps, zero last-set
time. -/
def NewInMemoryStorage (expredDuration : Nat) : InMemoryStorage :=
  { channels := [], namesById := [], lastSetTime := none,
    expredDuration := expredDuration }

/-- `InMemoryStorage.SetChannels` (storage.go lines 38-49): for each channel
of the batch, in order, bind `channel.ID ↦ channel` in `channels` and
`channel.Name ↦ channel.ID` in `namesById`; then set the last-set time to
now. Never fails. -/
def SetChannels (s : InMemoryStorage) (channels : List Channel) (now : Nat) :
    InMemoryStorage :=
  let s2 := channels.foldl
    (fun st ch =>
      { st with channels := (ch.id, ch) :: st.channels,
                namesById := (ch.name, ch.id) :: st.namesById }) s
  { s2 with lastSetTime := some now }

/-- `InMemoryStorage.GetByChannelName` (storage.go lines 51-66): read the
name index; a miss is `ErrNotFound`; otherwise read the channel map by the
found identifier; a miss there is also `ErrNotFound`; otherwise return the
record. -/
def GetByChannelName (s : InMemoryStorage) (channelName : String) :
    Except Err Channel :=
  match alistFind channelName s.namesById with
  | none => .error .notFound
  | some id =>
    match alistFind id s.channels with
    | none => .error .notFound
    | some ch => .ok ch

/-- `InMemoryStorage.NeedRefresh` (storage.go lines 68-79): true when the
last-set time is zero; else false when the expiry duration is zero; else
whether more than the expiry duration has elapsed since the last set. -/
def NeedRefresh (s : InMemoryStorage) (now : Nat) : Bool :=
  match s.lastSetTime with
  | none => true
  | some t =>
    if s.expredDuration = 0 then false
    else decide (s.expredDuration < now - t)

/-- The storage states reachable by the resolver: a fresh in-memory storage
followed by any sequence of `SetChannels` batches. -/
inductive Reachable : InMemoryStorage → Prop
  | init (d : Nat) : Reachable (NewInMemoryStorage d)
  | step (s : InMemoryStorage) (b : List Channel) (t : Nat) :
      Reachable s → Reachable (SetChannels s b t)

/-- The cross-index invariant of the spec: every name in the name index maps
to an identifier bound in the channel index. -/
def NameIndexConsistent (s : InMemoryStorage) : Prop :=
  ∀ n id, alistFind n s.namesById = some id →
    ∃ ch, alistFind id s.channels = some ch

/-- Oracle answers of one `Resolver.Lookup` run against an abstract
`Storage` and an abstract `Refresh`, in the order the source can consult
them: the `NeedRefresh` answer, the outcome of the refresh `prepare` would
run (`none` is success), the first `GetByChannelName` answer, the outcome
of the refresh that miss handling would run, and the second
`GetByChannelName` answer. -/
structure LookupOracle where
  needRefresh : Bool
  prepareRefreshResult : Option Err
  read1 : Except Err Channel
  missRefreshResult : Option Err
  read2 : Except Err Channel

/-- Observable outcome of one `Lookup` run: the returned value, whether the
`prepare` step ran `Refresh`, how many `GetByChannelName` reads were issued,
and how many refreshes the cache-miss handling triggered. -/
structure LookupRun where
  result : Except Err Channel
  prepareRefreshed : Bool
  reads : Nat
  missRefreshes : Nat
  deriving Repr, DecidableEq

/-- The read-and-miss-handling tail of `Resolver.Lookup` (resolver.go lines
94-107), entered after `prepare` succeeded; `pr` records whether `prepare`
ran a refresh. A successful read returns; a failed read returns the error
when refresh-on-cache-miss is off, returns any non-`ErrNotFound` error,
and otherwise refreshes once (a refresh error is returned) and returns the
second read's result unconditionally. -/
def lookupRead (refreshOnCacheMiss : Bool) (o : LookupOracle) (pr : Bool) :
    LookupRun :=
  match o.read1 with
  | .ok ch => { result := .ok ch, prepareRefreshed := pr, reads := 1, missRefreshes := 0 }
  | .error e =>
    if !refreshOnCacheMiss then
      { result := .error e, prepareRefreshed := pr, reads := 1, missRefreshes := 0 }
    else if e ≠ Err.notFound then
      { result := .error e, prepareRefreshed := pr, reads := 1, missRefreshes := 0 }
    else
      match o.missRefreshResult with
      | some e2 =>
        { result := .error e2, prepareRefreshed := pr, reads := 1, missRefreshes := 1 }
      | none =>
        { result := o.read2, prepareRefreshed := pr, reads := 2, missRefreshes := 1 }

/-- `Resolver.Lookup` with its `prepare` step inlined (resolver.go lines
90-93 and 110-115): when `NeedRefresh` answers false, no refresh runs and
the read proceeds; when it answers true, `Refresh` runs first and its error
aborts the lookup before any read. -/
def Lookup (refreshOnCacheMiss : Bool) (o : LookupOracle) : LookupRun :=
  if o.needRefresh then
    match o.prepareRefreshResult with
    | some e =>
      { result := .error e, prepareRefreshed := true, reads := 0, missRefreshes := 0 }
    | none => lookupRead refreshOnCacheMiss o true
  else lookupRead refreshOnCacheMiss o false

/-- Expected event trace of draining one endpoint from `cursor` through the
given pages (each page being its channel list and the next cursor the
remote returned): a page request, then a merge, then — unless the returned
cursor is empty — the drain of the remaining pages from that cursor. -/
def drainEvents (mk : String → Nat → Bool → ApiEvent) (limit : Nat) (excl : Bool) :
    String → List (List Channel × String) → List ApiEvent
  | _, [] => []
  | cursor, (chans, next) :: rest =>
    mk cursor limit excl :: .merged chans ::
      (if next = "" then [] else drainEvents mk limit excl next rest)

/-- A page sequence as a remote endpoint would serve it to completion: at
least one page, the last page's next cursor empty, every earlier page's
next cursor non-empty. -/
def pagesWF : List (List Channel × String) → Bool
  | [] => false
  | (_, next) :: rest => if next = "" then rest.isEmpty else pagesWF rest

/-- The successful response script corresponding to a page sequence. -/
def pageScript (pages : List (List Channel × String)) : List ApiResponse :=
  pages.map (fun p => .ok p.1 p.2)

/-- Front-inserting fold of a batch into an association list, keyed and
valued by the given projections; both map updates inside
`SetChannels` are of this shape. -/
def insFold {α β : Type} (key : β → String) (val : β → α) (b : List β)
    (m : List (String × α)) : List (String × α) :=
  b.foldl (fun m x => (key x, val x) :: m) m

/-- The default resolver configuration (resolver.go `defaultOptions`): batch
size 1000, archived channels included, public-channel search off. -/
def cfgDefault : RefreshConfig :=
  { batchSize := 1000, excludeArchived := false, searchPublicChannels := false }

/-- The in-memory storage's `SetChannels` as a `Storage` method, with the
wall clock frozen at `now` (the timestamp does not influence `Refresh`). -/
def memSetAt (now : Nat) : InMemoryStorage → List Channel → Except Err InMemoryStorage :=
  fun s chans => .ok (SetChannels s chans now)

/-- Concrete response script: the first page request is answered with a
retryable rate-limit error asking for a 3-tick wait, the reissued request
with a single one-channel page and no further cursor. -/
def rateLimitScript : List ApiResponse :=
  [.err (.rateLimited 3 true), .ok [⟨"C012345678", "test"⟩] ""]

/-- Concrete two-page answer of the user-conversations endpoint, matching
the repository's own pagination test: page one carries channel C012345678
"test" and continuation cursor "test_cusor", page two carries channel
C023456789 "test2" and the empty end-of-results cursor. -/
def pagesUserEx : List (List Channel × String) :=
  [([⟨"C012345678", "test"⟩], "test_cusor"), ([⟨"C023456789", "test2"⟩], "")]

/-- Concrete one-page answer of the directory-wide endpoint. -/
def pagesPublicEx : List (List Channel × String) :=
  [([⟨"C1", "pub"⟩], "")]

/-- A configuration with batch size 1, archived channels excluded and
public-channel search enabled, as in the repository's tests plus the
search-public option. -/
def cfgSearchEx : RefreshConfig :=
  { batchSize := 1, excludeArchived := true, searchPublicChannels := true }

/-- Concrete oracle exercising the refresh-on-cache-miss path: a fresh
cache, a first read that misses, a successful refresh, a second read that
hits. -/
def oracleMissThenHit : LookupOracle :=
  { needRefresh := false, prepareRefreshResult := none,
    read1 := .error .notFound, missRefreshResult := none,
    read2 := .ok ⟨"C012345678", "test"⟩ }

/-- Concrete oracle whose prepare-step refresh fails. -/
def oraclePrepareFails : LookupOracle :=
  { needRefresh := true, prepareRefreshResult := some (.apiFailure 5),
    read1 := .error .notFound, missRefreshResult := none,
    read2 := .error .notFound }

/-! ## Association-list and fold lemmas -/

/-- Reading a key that the batch does not contain passes through the fold. -/
theorem alistFind_insFold_of_not_mem {α β : Type} (key : β → String) (val : β → α)
    (b : List β) (m : List (String × α)) (k : String) (hk : k ∉ b.map key) :
    alistFind k (insFold key val b m) = alistFind k m := by
  induction b generalizing m with
  | nil => rfl
  | cons x rest ih =>
    simp only [List.map_cons, List.mem_cons, not_or] at hk
    have step : insFold key val (x :: rest) m
        = insFold key val rest ((key x, val x) :: m) := rfl
    rw [step, ih ((key x, val x) :: m) hk.2]
    have hne : ¬ key x = k := fun h => hk.1 h.symm
    simp [alistFind, hne]

/-- With batch keys distinct, each batch element is readable after the fold. -/
theorem alistFind_insFold_mem_nodup {α β : Type} (key : β → String) (val : β → α)
    (b : List β) (x : β) (hnd : (b.map key).Nodup) (hx : x ∈ b) :
    ∀ m, alistFind (key x) (insFold key val b m) = some (val x) := by
  induction b with
  | nil => cases hx
  | cons y rest ih =>
    intro m
    simp only [List.map_cons, List.nodup_cons] at hnd
    have step : insFold key val (y :: rest) m
        = insFold key val rest ((key y, val y) :: m) := rfl
    rcases List.mem_cons.mp hx with rfl | hx2
    · rw [step, alistFind_insFold_of_not_mem key val rest _ _ hnd.1]
      simp [alistFind]
    · exact ih hnd.2 hx2 _

/-- A key readable before the fold is still readable after it. -/
theorem alistFind_insFold_isSome {α β : Type} (key : β → String) (val : β → α)
    (b : List β) (k : String) :
    ∀ m, (alistFind k m).isSome → (alistFind k (insFold key val b m)).isSome := by
  induction b with
  | nil => exact fun m h => h
  | cons y rest ih =>
    intro m h
    have step : insFold key val (y :: rest) m
        = insFold key val rest ((key y, val y) :: m) := rfl
    rw [step]
    apply ih
    by_cases hk : key y = k
    · simp [alistFind, hk]
    · simpa [alistFind, hk] using h

/-- Every batch element's key is readable after the fold. -/
theorem alistFind_insFold_mem_isSome {α β : Type} (key : β → String) (val : β → α)
    (b : List β) (x : β) (hx : x ∈ b) :
    ∀ m, (alistFind (key x) (insFold key val b m)).isSome := by
  induction b with
  | nil => cases hx
  | cons y rest ih =>
    intro m
    have step : insFold key val (y :: rest) m
        = insFold key val rest ((key y, val y) :: m) := rfl
    rcases List.mem_cons.mp hx with rfl | hx2
    · rw [step]
      apply alistFind_insFold_isSome
      simp [alistFind]
    · rw [step]; exact ih hx2 _

/-- Every successful read after the fold comes from the batch or from the
original list. -/
theorem alistFind_insFold_cases {α β : Type} (key : β → String) (val : β → α)
    (b : List β) (k : String) (v : α) :
    ∀ m, alistFind k (insFold key val b m) = some v →
      (∃ x ∈ b, key x = k ∧ val x = v) ∨ alistFind k m = some v := by
  induction b with
  | nil => exact fun m h => .inr h
  | cons y rest ih =>
    intro m h
    have step : insFold key val (y :: rest) m
        = insFold key val rest ((key y, val y) :: m) := rfl
    rw [step] at h
    rcases ih _ h with ⟨x, hx, hk, hv⟩ | h2
    · exact .inl ⟨x, List.mem_cons_of_mem _ hx, hk, hv⟩
    · by_cases hky : key y = k
      · simp only [alistFind, if_pos hky, Option.some.injEq] at h2
        exact .inl ⟨y, List.mem_cons_self _ _, hky, h2⟩
      · simp only [alistFind, if_neg hky] at h2
        exact .inr h2

/-! ## SetChannels projection lemmas -/

/-- The channel index after `SetChannels` is the front-inserting fold of the
batch keyed by identifier. -/
theorem setChannels_channels (b : List Channel) (s : InMemoryStorage) (t : Nat) :
    (SetChannels s b t).channels = insFold Channel.id (fun ch => ch) b s.channels := by
  show (List.foldl _ s b).channels = _
  induction b generalizing s with
  | nil => rfl
  | cons ch rest ih => exact ih _

/-- The name index after `SetChannels` is the front-inserting fold of the
batch keyed by name, valued by identifier. -/
theorem setChannels_namesById (b : List Channel) (s : InMemoryStorage) (t : Nat) :
    (SetChannels s b t).namesById = insFold Channel.name Channel.id b s.namesById := by
  show (List.foldl _ s b).namesById = _
  induction b generalizing s with
  | nil => rfl
  | cons ch rest ih => exact ih _

/-- `SetChannels` does not change the configured expiry duration. -/
theorem setChannels_expredDuration (b : List Channel) (s : InMemoryStorage) (t : Nat) :
    (SetChannels s b t).expredDuration = s.expredDuration := by
  show (List.foldl _ s b).expredDuration = _
  induction b generalizing s with
  | nil => rfl
  | cons ch rest ih => exact ih _

/-- `SetChannels` stamps the last-set time with now. -/
theorem setChannels_lastSetTime (b : List Channel) (s : InMemoryStorage) (t : Nat) :
    (SetChannels s b t).lastSetTime = some t := rfl

/-! ## Claims about the in-memory store -/

/-- Claim C5: `NeedRefresh` on the in-memory store returns true if
`SetChannels` has never been called (last-set time still zero, in particular
on a fresh store); otherwise it returns false when the configured expiry
duration is zero, and when the expiry is non-zero it returns true exactly
when more than the expiry duration has elapsed since the last successful
`SetChannels` call. -/
theorem needRefresh_expiry_spec :
    (∀ s now, s.lastSetTime = none → NeedRefresh s now = true)
    ∧ (∀ d now, NeedRefresh (NewInMemoryStorage d) now = true)
    ∧ (∀ s b t0 now, s.expredDuration = 0 →
        NeedRefresh (SetChannels s b t0) now = false)
    ∧ (∀ s b t0 now, s.expredDuration ≠ 0 →
        (NeedRefresh (SetChannels s b t0) now = true ↔
          s.expredDuration < now - t0)) := by
  refine ⟨fun s now h => by simp [NeedRefresh, h], fun d now => rfl, ?_, ?_⟩
  · intro s b t0 now h0
    simp [NeedRefresh, setChannels_lastSetTime, setChannels_expredDuration, h0]
  · intro s b t0 now h0
    simp [NeedRefresh, setChannels_lastSetTime, setChannels_expredDuration, h0]

/-- Witness for C5: with a 10-tick expiry, the store needs a refresh 11
ticks after a `SetChannels` at tick 0. -/
theorem needRefresh_expiry_spec_witness :
    NeedRefresh (SetChannels (NewInMemoryStorage 10) [⟨"C1", "general"⟩] 0) 11 = true :=
  (needRefresh_expiry_spec.2.2.2 (NewInMemoryStorage 10) [⟨"C1", "general"⟩] 0 11
    (by decide)).mpr (by decide)

/-- Claim C8: `SetChannels` is monotone on the in-memory store: entries for
identifiers and names outside the batch are untouched, each batch record is
inserted or overwritten by identifier with its name-index entry refreshed,
and a name resolvable before a refresh with a disjoint batch resolves to
the very same record afterwards. -/
theorem setChannels_monotone :
    (∀ s b t id, id ∉ b.map Channel.id →
        alistFind id (SetChannels s b t).channels = alistFind id s.channels)
    ∧ (∀ s b t n, n ∉ b.map Channel.name →
        alistFind n (SetChannels s b t).namesById = alistFind n s.namesById)
    ∧ (∀ s b t ch, (b.map Channel.id).Nodup → ch ∈ b →
        alistFind ch.id (SetChannels s b t).channels = some ch)
    ∧ (∀ s b t ch, (b.map Channel.name).Nodup → ch ∈ b →
        alistFind ch.name (SetChannels s b t).namesById = some ch.id)
    ∧ (∀ s b t n id, n ∉ b.map Channel.name →
        alistFind n s.namesById = some id → id ∉ b.map Channel.id →
        GetByChannelName (SetChannels s b t) n = GetByChannelName s n) := by
  refine ⟨?_, ?_, ?_, ?_, ?_⟩
  · intro s b t id h
    rw [setChannels_channels]
    exact alistFind_insFold_of_not_mem _ _ _ _ _ h
  · intro s b t n h
    rw [setChannels_namesById]
    exact alistFind_insFold_of_not_mem _ _ _ _ _ h
  · intro s b t ch hnd hm
    rw [setChannels_channels]
    exact alistFind_insFold_mem_nodup Channel.id (fun ch => ch) b ch hnd hm _
  · intro s b t ch hnd hm
    rw [setChannels_namesById]
    exact alistFind_insFold_mem_nodup Channel.name Channel.id b ch hnd hm _
  · intro s b t n id hn hfind hid
    have h1 : alistFind n (SetChannels s b t).namesById = some id := by
      rw [setChannels_namesById, alistFind_insFold_of_not_mem _ _ _ _ _ hn, hfind]
    have h2 : alistFind id (SetChannels s b t).channels = alistFind id s.channels := by
      rw [setChannels_channels]
      exact alistFind_insFold_of_not_mem _ _ _ _ _ hid
    simp only [GetByChannelName, h1, hfind, h2]

/-- Witness for C8: after a second refresh with a disjoint batch, the name
stored by the first refresh still resolves to the same record. -/
theorem setChannels_monotone_witness :
    GetByChannelName
        (SetChannels (SetChannels (NewInMemoryStorage 0) [⟨"C1", "general"⟩] 0)
          [⟨"C2", "random"⟩] 1) "general"
      = GetByChannelName (SetChannels (NewInMemoryStorage 0) [⟨"C1", "general"⟩] 0)
          "general" :=
  setChannels_monotone.2.2.2.2 (SetChannels (NewInMemoryStorage 0) [⟨"C1", "general"⟩] 0)
    [⟨"C2", "random"⟩] 1 "general" "C1" (by decide) (by decide) (by decide)

/-- Claim C9: every store reachable by a sequence of `SetChannels` calls
from an empty store keeps each name-index entry pointing at an identifier
bound in the channel index, so whenever the name index hits,
`GetByChannelName` returns a record — the secondary not-found branch never
fires. -/
theorem reachable_name_index_consistent :
    ∀ s, Reachable s → NameIndexConsistent s ∧
      (∀ n id, alistFind n s.namesById = some id →
        ∃ ch, GetByChannelName s n = Except.ok ch) := by
  have hinv : ∀ s, Reachable s → NameIndexConsistent s := by
    intro s hs
    induction hs with
    | init d => intro n id h; simp [NewInMemoryStorage, alistFind] at h
    | step s b t _ ih =>
      intro n id h
      rw [setChannels_namesById] at h
      rw [setChannels_channels]
      rcases alistFind_insFold_cases _ _ _ _ _ _ h with ⟨ch, hch, hkn, hv⟩ | hold
      · subst hv
        have := alistFind_insFold_mem_isSome Channel.id (fun ch => ch) b ch hch s.channels
        exact Option.isSome_iff_exists.mp this
      · obtain ⟨ch, hch⟩ := ih n id hold
        have := alistFind_insFold_isSome Channel.id (fun ch => ch) b id s.channels
          (by simp [hch])
        exact Option.isSome_iff_exists.mp this
  intro s hs
  refine ⟨hinv s hs, fun n id h => ?_⟩
  obtain ⟨ch, hch⟩ := hinv s hs n id h
  exact ⟨ch, by simp only [GetByChannelName, h, hch]⟩

/-- Witness for C9: on a concrete reachable store the name-index hit yields
a record. -/
theorem reachable_name_index_consistent_witness :
    ∃ ch, GetByChannelName (SetChannels (NewInMemoryStorage 3) [⟨"C1", "general"⟩] 0)
      "general" = Except.ok ch :=
  (reachable_name_index_consistent _
    (Reachable.step _ _ _ (Reachable.init 3))).2 "general" "C1" (by decide)

/-- Claim C10: `GetByChannelName` does not guarantee that the returned
record's name equals the queried name: when a later batch rebinds the same
identifier to a different name, the old name-index entry persists and a
lookup by the old name returns the updated record. -/
theorem lookup_by_stale_name (s : InMemoryStorage) (ch : Channel) (t : Nat) (n : String)
    (h1 : alistFind n s.namesById = some ch.id) (h2 : n ≠ ch.name) :
    GetByChannelName (SetChannels s [ch] t) n = Except.ok ch := by
  unfold GetByChannelName
  have hn : (SetChannels s [ch] t).namesById = (ch.name, ch.id) :: s.namesById := by
    rw [setChannels_namesById]; rfl
  have hc : (SetChannels s [ch] t).channels = (ch.id, ch) :: s.channels := by
    rw [setChannels_channels]; rfl
  have hne : ¬ ch.name = n := fun h => h2 h.symm
  rw [hn, hc]
  simp [alistFind, hne, h1]

/-- Witness for C10: channel C1 first stored as "old", then refreshed as
"new"; looking up "old" returns the record now named "new". -/
theorem lookup_by_stale_name_witness :
    GetByChannelName
        (SetChannels (SetChannels (NewInMemoryStorage 0) [⟨"C1", "old"⟩] 0)
          [⟨"C1", "new"⟩] 1) "old"
      = Except.ok ⟨"C1", "new"⟩ :=
  lookup_by_stale_name (SetChannels (NewInMemoryStorage 0) [⟨"C1", "old"⟩] 0)
    ⟨"C1", "new"⟩ 1 "old" (by decide) (by decide)

/-! ## Lookup lemmas and claims -/

/-- When `prepare` does not fail, `Lookup` is the read-and-miss-handling
step, with the prepare-refresh flag equal to the `NeedRefresh` answer. -/
theorem lookup_eq_lookupRead (m : Bool) (o : LookupOracle)
    (h : o.needRefresh = true → o.prepareRefreshResult = none) :
    Lookup m o = lookupRead m o o.needRefresh := by
  unfold Lookup
  cases hn : o.needRefresh with
  | false => simp [hn]
  | true => simp [hn, h hn]

/-- The read step reports the prepare-refresh flag it was given. -/
theorem lookupRead_prepareRefreshed (m : Bool) (o : LookupOracle) (pr : Bool) :
    (lookupRead m o pr).prepareRefreshed = pr := by
  unfold lookupRead
  cases o.read1 with
  | ok ch => rfl
  | error e =>
    by_cases hm : m
    · by_cases he : e = Err.notFound
      · cases hmr : o.missRefreshResult <;> simp [hm, he, hmr]
      · simp [hm, he]
    · simp [hm]

/-- The read step always issues at least one read. -/
theorem lookupRead_reads_pos (m : Bool) (o : LookupOracle) (pr : Bool) :
    1 ≤ (lookupRead m o pr).reads := by
  unfold lookupRead
  cases o.read1 with
  | ok ch => exact Nat.le_refl 1
  | error e =>
    by_cases hm : m
    · by_cases he : e = Err.notFound
      · cases hmr : o.missRefreshResult <;> simp [hm, he, hmr]
      · simp [hm, he]
    · simp [hm]

/-- Claim C4: when the primary cache read fails with not-found and
refresh-on-cache-miss is off, the not-found error comes back with no
refresh; with the option on, exactly one refresh runs and the repeated
read's result is returned unconditionally (a failing miss-refresh is itself
returned after that single refresh); a read error that is not not-found is
returned at once with no refresh, whatever the option. -/
theorem lookup_miss_handling :
    (∀ o : LookupOracle, (o.needRefresh = true → o.prepareRefreshResult = none) →
        o.read1 = Except.error Err.notFound →
        Lookup false o =
          { result := Except.error Err.notFound, prepareRefreshed := o.needRefresh,
            reads := 1, missRefreshes := 0 })
    ∧ (∀ o : LookupOracle, (o.needRefresh = true → o.prepareRefreshResult = none) →
        o.read1 = Except.error Err.notFound → o.missRefreshResult = none →
        Lookup true o =
          { result := o.read2, prepareRefreshed := o.needRefresh,
            reads := 2, missRefreshes := 1 })
    ∧ (∀ (o : LookupOracle) (e2 : Err),
        (o.needRefresh = true → o.prepareRefreshResult = none) →
        o.read1 = Except.error Err.notFound → o.missRefreshResult = some e2 →
        Lookup true o =
          { result := Except.error e2, prepareRefreshed := o.needRefresh,
            reads := 1, missRefreshes := 1 })
    ∧ (∀ (o : LookupOracle) (m : Bool) (e : Err),
        (o.needRefresh = true → o.prepareRefreshResult = none) →
        o.read1 = Except.error e → e ≠ Err.notFound →
        Lookup m o =
          { result := Except.error e, prepareRefreshed := o.needRefresh,
            reads := 1, missRefreshes := 0 }) := by
  refine ⟨?_, ?_, ?_, ?_⟩
  · intro o hp hr
    rw [lookup_eq_lookupRead false o hp]
    simp [lookupRead, hr]
  · intro o hp hr hmr
    rw [lookup_eq_lookupRead true o hp]
    simp [lookupRead, hr, hmr]
  · intro o e2 hp hr hmr
    rw [lookup_eq_lookupRead true o hp]
    simp [lookupRead, hr, hmr]
  · intro o m e hp hr he
    rw [lookup_eq_lookupRead m o hp]
    cases m <;> simp [lookupRead, hr, he]

/-- Witness for C4: a fresh-enough cache, a miss, one refresh, and the
repeated read's hit is returned. -/
theorem lookup_miss_handling_witness :
    Lookup true oracleMissThenHit =
      { result := Except.ok ⟨"C012345678", "test"⟩, prepareRefreshed := false,
        reads := 2, missRefreshes := 1 } :=
  lookup_miss_handling.2.1 oracleMissThenHit (by decide) rfl rfl

/-- Claim C7: every `Lookup` first consults `NeedRefresh`; when it answers
true, `Refresh` runs before the cache read and a refresh error aborts the
lookup with that error before any read; when it answers false, the read
proceeds with no prepare refresh. -/
theorem lookup_prepare_spec :
    (∀ (m : Bool) (o : LookupOracle) (e : Err), o.needRefresh = true →
        o.prepareRefreshResult = some e →
        Lookup m o =
          { result := Except.error e, prepareRefreshed := true,
            reads := 0, missRefreshes := 0 })
    ∧ (∀ (m : Bool) (o : LookupOracle), o.needRefresh = true →
        o.prepareRefreshResult = none →
        Lookup m o = lookupRead m o true ∧
          (Lookup m o).prepareRefreshed = true ∧ 1 ≤ (Lookup m o).reads)
    ∧ (∀ (m : Bool) (o : LookupOracle), o.needRefresh = false →
        Lookup m o = lookupRead m o false ∧
          (Lookup m o).prepareRefreshed = false) := by
  refine ⟨?_, ?_, ?_⟩
  · intro m o e hn hp
    simp [Lookup, hn, hp]
  · intro m o hn hp
    have he : Lookup m o = lookupRead m o true := by
      rw [lookup_eq_lookupRead m o (fun _ => hp), hn]
    refine ⟨he, ?_, ?_⟩
    · rw [he, lookupRead_prepareRefreshed]
    · rw [he]; exact lookupRead_reads_pos m o true
  · intro m o hn
    have he : Lookup m o = lookupRead m o false := by
      rw [lookup_eq_lookupRead m o (fun h => absurd h (by rw [hn]; exact Bool.false_ne_true)), hn]
    exact ⟨he, by rw [he, lookupRead_prepareRefreshed]⟩

/-- Witness for C7: a stale cache whose prepare-step refresh fails aborts
the lookup with that error and zero reads. -/
theorem lookup_prepare_spec_witness :
    Lookup false oraclePrepareFails =
      { result := Except.error (Err.apiFailure 5), prepareRefreshed := true,
        reads := 0, missRefreshes := 0 } :=
  lookup_prepare_spec.1 false oraclePrepareFails (Err.apiFailure 5) rfl rfl

/-! ## Refresh lemmas and claims -/

/-- Claim C2: at every loop iteration of `Refresh`, if the caller's context
is already cancelled at the select check before a page request would be
issued — in particular at the check a rate-limit retry returns to — the
loop returns the context's cancellation error with no further remote call,
no merge and no cursor advance; a `Refresh` whose context is cancelled from
the start returns the cancellation error having issued nothing. -/
theorem refresh_cancellation_spec :
    (∀ (cfg : RefreshConfig) (σ : Type) (set : σ → List Channel → Except Err σ)
        (mk : String → Nat → Bool → ApiEvent) (cancelAt : Option Nat)
        (script : List ApiResponse) (cursor : String) (sleep t : Nat)
        (store : σ) (trace : List ApiEvent),
        canceled cancelAt t = true →
        refreshLoop cfg set mk cancelAt script cursor sleep t store trace =
          { status := RunStatus.failure Err.ctxCanceled, store := store,
            trace := trace, rest := script, checks := t })
    ∧ (∀ (cfg : RefreshConfig) (σ : Type) (set : σ → List Channel → Except Err σ)
        (script : List ApiResponse) (store : σ),
        Refresh cfg set (some 0) script store =
          { status := RunStatus.failure Err.ctxCanceled, store := store,
            trace := [], rest := script, checks := 0 }) := by
  have h1 : ∀ (cfg : RefreshConfig) (σ : Type) (set : σ → List Channel → Except Err σ)
      (mk : String → Nat → Bool → ApiEvent) (cancelAt : Option Nat)
      (script : List ApiResponse) (cursor : String) (sleep t : Nat)
      (store : σ) (trace : List ApiEvent),
      canceled cancelAt t = true →
      refreshLoop cfg set mk cancelAt script cursor sleep t store trace =
        { status := RunStatus.failure Err.ctxCanceled, store := store,
          trace := trace, rest := script, checks := t } := by
    intro cfg σ set mk cancelAt script cursor sleep t store trace h
    unfold refreshLoop
    rw [h]
    simp
  refine ⟨h1, ?_⟩
  intro cfg σ set script store
  have hr := h1 cfg σ set ApiEvent.callUser (some 0) script "" 0 0 store [] (by decide)
  simp [Refresh, hr]

/-- Witness for C2: with the context cancelled from check 1 onwards, the
retry iteration returns the cancellation error without reissuing the page
request. -/
theorem refresh_cancellation_spec_witness :
    refreshLoop cfgDefault (memSetAt 0) ApiEvent.callUser (some 1) rateLimitScript
        "" 0 1 (NewInMemoryStorage 0) [] =
      { status := RunStatus.failure Err.ctxCanceled, store := NewInMemoryStorage 0,
        trace := [], rest := rateLimitScript, checks := 1 } :=
  refresh_cancellation_spec.1 cfgDefault InMemoryStorage (memSetAt 0) ApiEvent.callUser
    (some 1) rateLimitScript "" 0 1 (NewInMemoryStorage 0) [] (by decide)

/-- Claim C6: a page request answered by a non-retryable rate-limit error,
or by any error that is not a rate-limit signal, makes the loop — and
`Refresh` — return that error unchanged at once: no merge happens, the
store is untouched, and the cursor is not advanced. -/
theorem refresh_nonretryable_abort :
    (∀ (cfg : RefreshConfig) (σ : Type) (set : σ → List Channel → Except Err σ)
        (mk : String → Nat → Bool → ApiEvent) (cancelAt : Option Nat) (e : Err)
        (rest : List ApiResponse) (cursor : String) (sleep t : Nat)
        (store : σ) (trace : List ApiEvent),
        canceled cancelAt t = false → isRetryableRL e = false →
        refreshLoop cfg set mk cancelAt (ApiResponse.err e :: rest) cursor sleep t store trace =
          { status := RunStatus.failure e, store := store,
            trace := trace ++ [mk cursor cfg.batchSize cfg.excludeArchived],
            rest := rest, checks := t + 1 })
    ∧ (∀ (cfg : RefreshConfig) (σ : Type) (set : σ → List Channel → Except Err σ)
        (e : Err) (rest : List ApiResponse) (store : σ),
        isRetryableRL e = false →
        Refresh cfg set none (ApiResponse.err e :: rest) store =
          { status := RunStatus.failure e, store := store,
            trace := [ApiEvent.callUser "" cfg.batchSize cfg.excludeArchived],
            rest := rest, checks := 1 }) := by
  have h1 : ∀ (cfg : RefreshConfig) (σ : Type) (set : σ → List Channel → Except Err σ)
      (mk : String → Nat → Bool → ApiEvent) (cancelAt : Option Nat) (e : Err)
      (rest : List ApiResponse) (cursor : String) (sleep t : Nat)
      (store : σ) (trace : List ApiEvent),
      canceled cancelAt t = false → isRetryableRL e = false →
      refreshLoop cfg set mk cancelAt (ApiResponse.err e :: rest) cursor sleep t store trace =
        { status := RunStatus.failure e, store := store,
          trace := trace ++ [mk cursor cfg.batchSize cfg.excludeArchived],
          rest := rest, checks := t + 1 } := by
    intro cfg σ set mk cancelAt e rest cursor sleep t store trace hc he
    simp [refreshLoop, hc, he]
  refine ⟨h1, ?_⟩
  intro cfg σ set e rest store he
  have hr := h1 cfg σ set ApiEvent.callUser none e rest "" 0 0 store [] rfl he
  simp [Refresh, hr]

/-- Witness for C6: a non-retryable rate-limit answer to the first page
request aborts `Refresh` with that error after the one call and no merge. -/
theorem refresh_nonretryable_abort_witness :
    Refresh cfgDefault (memSetAt 0) none
        [ApiResponse.err (Err.rateLimited 5 false)] (NewInMemoryStorage 0) =
      { status := RunStatus.failure (Err.rateLimited 5 false),
        store := NewInMemoryStorage 0,
        trace := [ApiEvent.callUser "" 1000 false], rest := [], checks := 1 } :=
  refresh_nonretryable_abort.2 cfgDefault InMemoryStorage (memSetAt 0)
    (Err.rateLimited 5 false) [] (NewInMemoryStorage 0) (by decide)

/-- Claim C1 (divergence evidence): a first page request answered by a
retryable rate-limit error with a 3-tick retry-after is followed directly
by the reissued identical page request — same empty cursor, same limit and
flag — with nothing between the two calls in the trace: the signalled wait
never happens, because the select statement's `default:` case makes it
non-blocking. The retry itself, with the cursor unadvanced, does occur. -/
theorem refresh_rate_limit_retries_without_wait :
    Refresh cfgDefault (memSetAt 0) none rateLimitScript (NewInMemoryStorage 0) =
      { status := RunStatus.success,
        store := SetChannels (NewInMemoryStorage 0) [⟨"C012345678", "test"⟩] 0,
        trace := [ApiEvent.callUser "" 1000 false, ApiEvent.callUser "" 1000 false,
                  ApiEvent.merged [⟨"C012345678", "test"⟩]],
        rest := [], checks := 2 } := by
  decide

/-- With a never-failing storage, no cancellation, and an endpoint serving
well-formed pages, the loop drains exactly those pages: one page request
per page chained through the returned cursors, one merge per page pushed
before the next request, stopping at the empty cursor with exactly the
remaining script untouched. -/
theorem refreshLoop_drain (cfg : RefreshConfig) (σ : Type) (set : σ → List Channel → σ)
    (mk : String → Nat → Bool → ApiEvent) :
    ∀ (pages : List (List Channel × String)) (extra : List ApiResponse)
      (cursor : String) (sleep t : Nat) (store : σ) (trace : List ApiEvent),
      pagesWF pages = true →
      refreshLoop cfg (liftSet set) mk none (pageScript pages ++ extra)
          cursor sleep t store trace =
        { status := RunStatus.success,
          store := pages.foldl (fun s p => set s p.1) store,
          trace := trace ++ drainEvents mk cfg.batchSize cfg.excludeArchived cursor pages,
          rest := extra, checks := t + pages.length } := by
  intro pages
  induction pages with
  | nil =>
    intro extra cursor sleep t store trace h
    simp [pagesWF] at h
  | cons page rest ih =>
    intro extra cursor sleep t store trace h
    obtain ⟨chans, next⟩ := page
    by_cases hn : next = ""
    · subst hn
      have hrest : rest = [] := by
        simpa [pagesWF, List.isEmpty_iff] using h
      subst hrest
      simp [pageScript, refreshLoop, canceled, liftSet, drainEvents]
    · have hwf : pagesWF rest = true := by simpa [pagesWF, hn] using h
      have hstep : refreshLoop cfg (liftSet set) mk none
          (pageScript ((chans, next) :: rest) ++ extra) cursor sleep t store trace =
          refreshLoop cfg (liftSet set) mk none (pageScript rest ++ extra) next 0 (t + 1)
            (set store chans)
            (trace ++ [mk cursor cfg.batchSize cfg.excludeArchived] ++
              [ApiEvent.merged chans]) := by
        simp [pageScript, refreshLoop, canceled, liftSet, hn]
      rw [hstep, ih extra next 0 (t + 1) (set store chans) _ hwf]
      simp [drainEvents, hn, List.append_assoc]
      omega

/-- Every event the loop appends to its trace is either a page request to
its own endpoint, carrying the configured limit and exclude-archived flag,
or a merge of a page; in particular the loop never records an event of the
other endpoint and never records a completed wait. -/
theorem refreshLoop_trace_shape (cfg : RefreshConfig) (σ : Type)
    (set : σ → List Channel → Except Err σ) (mk : String → Nat → Bool → ApiEvent)
    (cancelAt : Option Nat) :
    ∀ (script : List ApiResponse) (cursor : String) (sleep t : Nat) (store : σ)
      (trace : List ApiEvent) (e : ApiEvent),
      e ∈ (refreshLoop cfg set mk cancelAt script cursor sleep t store trace).trace →
      e ∈ trace ∨ (∃ c, e = mk c cfg.batchSize cfg.excludeArchived) ∨
        ∃ chans, e = ApiEvent.merged chans := by
  intro script
  induction script with
  | nil =>
    intro cursor sleep t store trace e h
    by_cases hc : canceled cancelAt t <;> simp [refreshLoop, hc] at h <;> exact .inl h
  | cons resp rest ih =>
    intro cursor sleep t store trace e h
    by_cases hc : canceled cancelAt t
    · simp [refreshLoop, hc] at h
      exact .inl h
    · cases resp with
      | err e2 =>
        by_cases hr : isRetryableRL e2
        · simp only [refreshLoop, hc, Bool.false_eq_true, if_false, hr, if_true] at h
          rcases ih _ _ _ _ _ e h with hmem | hshape
          · rcases List.mem_append.mp hmem with hold | hnew
            · exact .inl hold
            · exact .inr (.inl ⟨cursor, List.mem_singleton.mp hnew⟩)
          · exact .inr hshape
        · simp only [refreshLoop, hc, Bool.false_eq_true, if_false, hr] at h
          rcases List.mem_append.mp h with hold | hnew
          · exact .inl hold
          · exact .inr (.inl ⟨cursor, List.mem_singleton.mp hnew⟩)
      | ok chans next =>
        rcases hset : set store chans with e3 | store2
        · simp only [refreshLoop, hc, Bool.false_eq_true, if_false, hset] at h
          rcases List.mem_append.mp h with h2 | hnew
          · rcases List.mem_append.mp h2 with hold | hcall
            · exact .inl hold
            · exact .inr (.inl ⟨cursor, List.mem_singleton.mp hcall⟩)
          · exact .inr (.inr ⟨chans, List.mem_singleton.mp hnew⟩)
        · by_cases hn : next = ""
          · simp only [refreshLoop, hc, Bool.false_eq_true, if_false, hset, hn, if_true] at h
            rcases List.mem_append.mp h with h2 | hnew
            · rcases List.mem_append.mp h2 with hold | hcall
              · exact .inl hold
              · exact .inr (.inl ⟨cursor, List.mem_singleton.mp hcall⟩)
            · exact .inr (.inr ⟨chans, List.mem_singleton.mp hnew⟩)
          · simp only [refreshLoop, hc, Bool.false_eq_true, if_false, hset, hn, if_false] at h
            rcases ih _ _ _ _ _ e h with hmem | hshape
            · rcases List.mem_append.mp hmem with h2 | hnew
              · rcases List.mem_append.mp h2 with hold | hcall
                · exact .inl hold
                · exact .inr (.inl ⟨cursor, List.mem_singleton.mp hcall⟩)
              · exact .inr (.inr ⟨chans, List.mem_singleton.mp hnew⟩)
            · exact .inr hshape

/-- When public-channel search is disabled, `Refresh` is exactly the
user-endpoint loop. -/
theorem refresh_eq_loop1_of_no_search (cfg : RefreshConfig) (σ : Type)
    (set : σ → List Channel → Except Err σ) (cancelAt : Option Nat)
    (script : List ApiResponse) (store : σ)
    (h : cfg.searchPublicChannels = false) :
    Refresh cfg set cancelAt script store =
      refreshLoop cfg set ApiEvent.callUser cancelAt script "" 0 0 store [] := by
  simp only [Refresh, h]
  split <;> simp

/-- Claim C3: `Refresh` drains the caller-visible listing endpoint from the
empty cursor through the cursors each page returns, passing the configured
batch size and exclude-archived flag on every call and merging each page
into the store before the next request, stopping at the empty cursor; with
search-public-channels enabled it then repeats the same drain on the
directory endpoint with its own cursor restarting empty; with it disabled,
no directory page request is ever issued. -/
theorem refresh_drain_spec :
    (∀ (cfg : RefreshConfig) (σ : Type) (set : σ → List Channel → σ)
        (pages1 pages2 : List (List Channel × String)) (store : σ),
        pagesWF pages1 = true → pagesWF pages2 = true →
        cfg.searchPublicChannels = true →
        Refresh cfg (liftSet set) none (pageScript pages1 ++ pageScript pages2) store =
          { status := RunStatus.success,
            store := (pages1 ++ pages2).foldl (fun s p => set s p.1) store,
            trace := drainEvents ApiEvent.callUser cfg.batchSize cfg.excludeArchived "" pages1 ++
              drainEvents ApiEvent.callPublic cfg.batchSize cfg.excludeArchived "" pages2,
            rest := [], checks := pages1.length + pages2.length })
    ∧ (∀ (cfg : RefreshConfig) (σ : Type) (set : σ → List Channel → σ)
        (pages1 : List (List Channel × String)) (store : σ),
        pagesWF pages1 = true → cfg.searchPublicChannels = false →
        Refresh cfg (liftSet set) none (pageScript pages1) store =
          { status := RunStatus.success,
            store := pages1.foldl (fun s p => set s p.1) store,
            trace := drainEvents ApiEvent.callUser cfg.batchSize cfg.excludeArchived "" pages1,
            rest := [], checks := pages1.length })
    ∧ (∀ (cfg : RefreshConfig) (σ : Type) (set : σ → List Channel → Except Err σ)
        (cancelAt : Option Nat) (script : List ApiResponse) (store : σ) (e : ApiEvent),
        cfg.searchPublicChannels = false →
        e ∈ (Refresh cfg set cancelAt script store).trace →
        (∃ c, e = ApiEvent.callUser c cfg.batchSize cfg.excludeArchived) ∨
          ∃ chans, e = ApiEvent.merged chans) := by
  refine ⟨?_, ?_, ?_⟩
  · intro cfg σ set pages1 pages2 store h1 h2 hs
    have hr1 := refreshLoop_drain cfg σ set ApiEvent.callUser pages1 (pageScript pages2)
      "" 0 0 store [] h1
    have hr2 := refreshLoop_drain cfg σ set ApiEvent.callPublic pages2 []
      "" 0 pages1.length (pages1.foldl (fun s p => set s p.1) store)
      (drainEvents ApiEvent.callUser cfg.batchSize cfg.excludeArchived "" pages1) h2
    rw [List.append_nil] at hr2
    simp only [List.nil_append, Nat.zero_add] at hr1
    simp only [Refresh, hr1, hs, if_true]
    rw [hr2]
    simp [List.foldl_append]
  · intro cfg σ set pages1 store h1 hs
    have hr1 := refreshLoop_drain cfg σ set ApiEvent.callUser pages1 [] "" 0 0 store [] h1
    rw [List.append_nil] at hr1
    simp only [List.nil_append, Nat.zero_add] at hr1
    rw [refresh_eq_loop1_of_no_search cfg σ (liftSet set) none (pageScript pages1) store hs,
      hr1]
  · intro cfg σ set cancelAt script store e hs hmem
    rw [refresh_eq_loop1_of_no_search cfg σ set cancelAt script store hs] at hmem
    rcases refreshLoop_trace_shape cfg σ set ApiEvent.callUser cancelAt script
      "" 0 0 store [] e hmem with hnil | hshape
    · exact absurd hnil (List.not_mem_nil e)
    · exact hshape

/-- Witness for C3: a two-page user drain followed by a one-page directory
drain with the repository-test cursors, and a search-disabled run whose
trace event is a user-endpoint call. -/
theorem refresh_drain_spec_witness :
    (Refresh cfgSearchEx (liftSet (fun (s : List (List Channel)) chans => s ++ [chans]))
        none (pageScript pagesUserEx ++ pageScript pagesPublicEx) [] =
      { status := RunStatus.success,
        store := (pagesUserEx ++ pagesPublicEx).foldl (fun s p => s ++ [p.1]) [],
        trace := drainEvents ApiEvent.callUser cfgSearchEx.batchSize
            cfgSearchEx.excludeArchived "" pagesUserEx ++
          drainEvents ApiEvent.callPublic cfgSearchEx.batchSize
            cfgSearchEx.excludeArchived "" pagesPublicEx,
        rest := [], checks := pagesUserEx.length + pagesPublicEx.length })
    ∧ ((∃ c, ApiEvent.callUser "" 1000 false = ApiEvent.callUser c cfgDefault.batchSize
          cfgDefault.excludeArchived) ∨
        ∃ chans, ApiEvent.callUser "" 1000 false = ApiEvent.merged chans) :=
  ⟨refresh_drain_spec.1 cfgSearchEx (List (List Channel))
      (fun s chans => s ++ [chans]) pagesUserEx pagesPublicEx [] (by decide) (by decide) rfl,
    refresh_drain_spec.2.2 cfgDefault InMemoryStorage (memSetAt 0) none rateLimitScript
      (NewInMemoryStorage 0) (ApiEvent.callUser "" 1000 false) rfl (by decide)⟩
